import Mathlib

/-!
Shallow embedding of the slack-cli-rust sources (src/lib.rs, src/token.rs,
src/slack.rs) for verification of the natural-language specification.

Modelling conventions:
- Rust `String` / `&str` values are modelled as `List Char` (`Str`), i.e. as
  sequences of Unicode scalar values.  Rust byte indices computed by the code
  always fall on character boundaries (they come from `char_indices`,
  `rfind('\n')` with a one-byte needle, or `starts_with('#')`), so slicing at
  those byte offsets corresponds exactly to slicing the character list at the
  matching character index.
- `str::len` (a UTF-8 byte count) is modelled by `byte_len`, the sum of the
  UTF-8 sizes of the characters; `chars().count()` is modelled by list length.
- The environment, the file system, and the HTTP transport are passed as
  explicit function oracles.
- The two `unwrap()` calls inside `send_message` are modelled by `Option`
  results whose `none` case maps to a distinguished `SendOutcome.panicked`
  value, so that panic-freedom is a provable statement.
-/

deriving instance DecidableEq for Except

/-- Rust strings, modelled as lists of Unicode scalar values. -/
abbrev Str := List Char

/-- UTF-8 byte length of a string; models Rust `str::len`. -/
def byte_len (s : Str) : Nat := (s.map Char.utf8Size).sum

/-- Models `char::is_ascii_hexdigit`: `0-9`, `a-f`, `A-F`. -/
def is_ascii_hexdigit (c : Char) : Bool :=
  decide (48 ≤ c.toNat ∧ c.toNat ≤ 57) ||
  decide (97 ≤ c.toNat ∧ c.toNat ≤ 102) ||
  decide (65 ≤ c.toNat ∧ c.toNat ≤ 70)

/-- Models Rust `str::to_lowercase` as a character-wise map.  Rust performs
full Unicode lowercasing; on ASCII (the only range that can influence the
keyword and hex-pattern comparisons in `resolve_color`) it maps `A`–`Z` to
`a`–`z` and is the identity elsewhere in ASCII, which is exactly
`Char.toLower`.  The few non-ASCII characters whose Unicode lowercase is
ASCII-adjacent (KELVIN SIGN, LATIN CAPITAL LETTER I WITH DOT ABOVE) cannot
turn a non-matching input into a keyword or hex match, so the model agrees
with the source on the outcome of every comparison performed. -/
def to_lowercase (s : Str) : Str := s.map Char.toLower

/-- The error enum `SlackCliError` from src/lib.rs.  The `std::io::Error` and
`reqwest::Error` payloads are modelled as message strings. -/
inductive SlackCliError where
  | TokenNotFound
  | TokenReadError (msg : Str)
  | HttpError (msg : Str)
  | SlackApiError (msg : Str)
  | NoMessage
  | StdinError (msg : Str)
  | InvalidColor (input : Str)
deriving DecidableEq

/-- `resolve_color` from src/lib.rs (lines 26–39): keyword table, then the
`#RRGGBB` guard on the lowercased input (7 bytes, leading `#`, six ASCII hex
digits), otherwise `InvalidColor` carrying the original input. -/
def resolve_color (input : Str) : Except SlackCliError Str :=
  let lowered := to_lowercase input
  if lowered = ("good").toList ∨ lowered = ("success").toList then
    Except.ok (("#36a64f").toList)
  else if lowered = ("warning").toList then
    Except.ok (("#daa038").toList)
  else if lowered = ("danger").toList ∨ lowered = ("error").toList then
    Except.ok (("#a30200").toList)
  else if byte_len lowered = 7 ∧ lowered.head? = some '#' ∧
      lowered.tail.all is_ascii_hexdigit = true then
    Except.ok lowered
  else
    Except.error (SlackCliError.InvalidColor input)

/-- Specification-side predicate: the input is a 7-character string `#` +
six ASCII hex digits (either case).  Used to state what `resolve_color`
accepts through its hex branch. -/
def is_hex_color_input (s : Str) : Bool :=
  decide (s.length = 7) && decide (s.head? = some '#') && s.tail.all is_ascii_hexdigit

/-- Specification-side predicate: the lowercased input equals one of the five
color keywords of `resolve_color`. -/
def is_color_keyword (l : Str) : Bool :=
  decide (l = ("good").toList) || decide (l = ("success").toList) ||
  decide (l = ("warning").toList) || decide (l = ("danger").toList) ||
  decide (l = ("error").toList)

/-- `char_len` from src/lib.rs (lines 41–43): `text.chars().count()`. -/
def char_len (s : Str) : Nat := s.length

/-- Models `str::rfind('\n')`: index of the last newline, if any.  The Rust
call returns a byte offset; on the character-list model the corresponding
character index is returned (the two agree through the boundary-preserving
correspondence described in the header). -/
def rfind_newline : Str → Option Nat
  | [] => none
  | c :: rest =>
    match rfind_newline rest with
    | some i => some (i + 1)
    | none => if c = '\n' then some 0 else none

/-- One iteration's split index in `split_text` (lines 59–70): the position
just after the last newline inside the first `max_len` characters, or
`max_len` (a hard split) when that window has no newline. -/
def split_point (remaining : Str) (max_len : Nat) : Nat :=
  match rfind_newline (remaining.take max_len) with
  | some pos => pos + 1
  | none => max_len

/-- The `while` loop of `split_text` (lines 53–74), made total with a fuel
argument.  The fuel-exhaustion branch returns the remaining text unchanged;
for `1 ≤ max_len` and fuel at least the length of `remaining` it is proved
unreachable (each iteration consumes at least one character).  With
`max_len = 0` and a non-empty input the Rust loop itself never terminates,
which is why every theorem about `split_text` assumes a positive maximum. -/
def split_text_go (max_len : Nat) : Nat → Str → List Str
  | _, [] => []
  | 0, remaining => [remaining]
  | fuel + 1, remaining =>
    if char_len remaining ≤ max_len then [remaining]
    else
      remaining.take (split_point remaining max_len)
        :: split_text_go max_len fuel (remaining.drop (split_point remaining max_len))

/-- `split_text` from src/lib.rs (lines 45–77). -/
def split_text (text : Str) (max_len : Nat) : List Str :=
  if char_len text ≤ max_len then [text]
  else split_text_go max_len (char_len text) text

/-- `TokenConfig` from src/token.rs; `PathBuf` is modelled as a path string. -/
structure TokenConfig where
  env_var : Str
  file_paths : List Str

/-- Models `char::is_whitespace` (the Unicode `White_Space` property), the
predicate used by Rust `str::trim`. -/
def is_rust_whitespace (c : Char) : Bool :=
  decide (9 ≤ c.toNat ∧ c.toNat ≤ 13) || decide (c.toNat = 32) ||
  decide (c.toNat = 133) || decide (c.toNat = 160) || decide (c.toNat = 5760) ||
  decide (8192 ≤ c.toNat ∧ c.toNat ≤ 8202) || decide (c.toNat = 8232) ||
  decide (c.toNat = 8233) || decide (c.toNat = 8239) || decide (c.toNat = 8287) ||
  decide (c.toNat = 12288)

/-- Models Rust `str::trim`: strip whitespace from both ends. -/
def trim (s : Str) : Str :=
  ((s.dropWhile is_rust_whitespace).reverse.dropWhile is_rust_whitespace).reverse

/-- The file-path loop of `resolve_token_with_config` (src/token.rs lines
36–45): first path whose contents can be read (`fs p = some _`) and whose
trimmed contents are non-empty wins; unreadable files are skipped; exhaustion
is `TokenNotFound`.  The file system is the oracle `fs`. -/
def read_token_files (fs : Str → Option Str) : List Str → Except SlackCliError Str
  | [] => Except.error SlackCliError.TokenNotFound
  | p :: rest =>
    match fs p with
    | some contents =>
      let token := trim contents
      if token ≠ [] then Except.ok token else read_token_files fs rest
    | none => read_token_files fs rest

/-- `resolve_token_with_config` from src/token.rs (lines 28–46).  The
environment is the oracle `env` (`env name = some v` models
`env::var(name) = Ok(v)`). -/
def resolve_token_with_config (env : Str → Option Str) (fs : Str → Option Str)
    (config : TokenConfig) : Except SlackCliError Str :=
  match env config.env_var with
  | some v =>
    let token := trim v
    if token ≠ [] then Except.ok token else read_token_files fs config.file_paths
  | none => read_token_files fs config.file_paths

/-- Specification-side helper: the token the environment variable yields, if
it is set and non-empty after trimming. -/
def env_token (env : Str → Option Str) (name : Str) : Option Str :=
  match env name with
  | some v => if trim v ≠ [] then some (trim v) else none
  | none => none

/-- Specification-side helper: the token a single file yields, if it is
readable and non-empty after trimming. -/
def file_token (fs : Str → Option Str) (p : Str) : Option Str :=
  match fs p with
  | some contents => if trim contents ≠ [] then some (trim contents) else none
  | none => none

/-- `TextObject` from src/slack.rs (field `text_type` serializes as "type"). -/
structure TextObject where
  text_type : Str
  text : Str
deriving DecidableEq

/-- `SectionBlock` from src/slack.rs. -/
structure SectionBlock where
  block_type : Str
  text : TextObject
deriving DecidableEq

/-- `SectionBlock::new`: a "section" block with "mrkdwn" text. -/
def SectionBlock.new (text : Str) : SectionBlock :=
  ⟨("section").toList, ⟨("mrkdwn").toList, text⟩⟩

/-- `HeaderBlock` from src/slack.rs. -/
structure HeaderBlock where
  block_type : Str
  text : TextObject
deriving DecidableEq

/-- `HeaderBlock::new`: a "header" block with "plain_text" text. -/
def HeaderBlock.new (text : Str) : HeaderBlock :=
  ⟨("header").toList, ⟨("plain_text").toList, text⟩⟩

/-- The untagged `Block` enum from src/slack.rs. -/
inductive Block where
  | Header (h : HeaderBlock)
  | Section (s : SectionBlock)
deriving DecidableEq

/-- `Attachment` from src/slack.rs. -/
structure Attachment where
  color : Str
  blocks : List Block
deriving DecidableEq

/-- `AttachmentPayload` from src/slack.rs. -/
structure AttachmentPayload where
  channel : Str
  text : Str
  attachments : List Attachment
deriving DecidableEq

/-- `BlocksPayload` from src/slack.rs. -/
structure BlocksPayload where
  channel : Str
  text : Str
  blocks : List Block
deriving DecidableEq

/-- The payload variant sent by `send_message`: exactly one of the two
payload structs is serialized per call (lines 108–123 of src/lib.rs). -/
inductive Payload where
  | attachment (p : AttachmentPayload)
  | blocks (p : BlocksPayload)
deriving DecidableEq

/-- `SlackResponse` from src/slack.rs. -/
structure SlackResponse where
  ok : Bool
  error : Option Str
  warning : Option Str
deriving DecidableEq

/-- `SendConfig` from src/lib.rs. -/
structure SendConfig where
  channel : Str
  message : Str
  color : Option Str
  title : Option Str
  token : Str

/-- `SendResult` from src/lib.rs. -/
structure SendResult where
  ok : Bool
  warning : Option Str
deriving DecidableEq

/-- The `SlackClient` trait's single method `post_message(token, payload)`,
modelled as a function oracle. -/
abbrev SlackClientFun := Str → Str → Except SlackCliError SlackResponse

/-- JSON value trees, as produced by the derived `Serialize` implementations
of the payload types.  Object keys are strings by construction, matching the
fact that every serialized field of the payload structs has a string name. -/
inductive Json where
  | str (s : Str)
  | arr (elems : List Json)
  | obj (fields : List (Str × Json))

/-- Character used by serde_json's `\u00XX` short escapes (lowercase hex). -/
def hex_digit_char (n : Nat) : Char :=
  if n < 10 then Char.ofNat (48 + n) else Char.ofNat (87 + n)

/-- serde_json's string-character escaping: `"` and `\` get a backslash,
backspace/tab/newline/form feed/carriage return get two-character escapes,
all other control characters below 0x20 get `\u00XX`. -/
def escape_char (c : Char) : Str :=
  if c = '"' then ['\\', '"']
  else if c = '\\' then ['\\', '\\']
  else if c.toNat = 8 then ['\\', 'b']
  else if c.toNat = 9 then ['\\', 't']
  else if c.toNat = 10 then ['\\', 'n']
  else if c.toNat = 12 then ['\\', 'f']
  else if c.toNat = 13 then ['\\', 'r']
  else if c.toNat < 32 then
    ['\\', 'u', '0', '0', hex_digit_char (c.toNat / 16), hex_digit_char (c.toNat % 16)]
  else [c]

/-- Escape a whole string for a JSON string literal. -/
def escape_string (s : Str) : Str := (s.map escape_char).flatten

mutual

/-- Render a JSON tree to its serialized text, as serde_json does. -/
def render : Json → Str
  | Json.str s => '"' :: escape_string s ++ ['"']
  | Json.arr elems => '[' :: render_elems elems ++ [']']
  | Json.obj fields => '\x7b' :: render_fields fields ++ ['\x7d']

/-- Render array elements, comma-separated. -/
def render_elems : List Json → Str
  | [] => []
  | [j] => render j
  | j :: rest => render j ++ ',' :: render_elems rest

/-- Render object fields, comma-separated, as `"key":value`. -/
def render_fields : List (Str × Json) → Str
  | [] => []
  | [(k, v)] => '"' :: escape_string k ++ '"' :: ':' :: render v
  | (k, v) :: rest =>
    ('"' :: escape_string k ++ '"' :: ':' :: render v) ++ ',' :: render_fields rest

end

/-- The derived `Serialize` of `TextObject` (`text_type` renamed "type"). -/
def TextObject.toJson (t : TextObject) : Json :=
  Json.obj [(("type").toList, Json.str t.text_type), (("text").toList, Json.str t.text)]

/-- The derived `Serialize` of `SectionBlock` (`block_type` renamed "type"). -/
def SectionBlock.toJson (b : SectionBlock) : Json :=
  Json.obj [(("type").toList, Json.str b.block_type), (("text").toList, b.text.toJson)]

/-- The derived `Serialize` of `HeaderBlock` (`block_type` renamed "type"). -/
def HeaderBlock.toJson (b : HeaderBlock) : Json :=
  Json.obj [(("type").toList, Json.str b.block_type), (("text").toList, b.text.toJson)]

/-- The derived untagged `Serialize` of `Block`: each variant's fields are
serialized flatly, the "type" string being the only discriminant. -/
def Block.toJson : Block → Json
  | Block.Header h => h.toJson
  | Block.Section s => s.toJson

/-- The derived `Serialize` of `Attachment`. -/
def Attachment.toJson (a : Attachment) : Json :=
  Json.obj [(("color").toList, Json.str a.color),
            (("blocks").toList, Json.arr (a.blocks.map Block.toJson))]

/-- The derived `Serialize` of `AttachmentPayload`. -/
def AttachmentPayload.toJson (p : AttachmentPayload) : Json :=
  Json.obj [(("channel").toList, Json.str p.channel),
            (("text").toList, Json.str p.text),
            (("attachments").toList, Json.arr (p.attachments.map Attachment.toJson))]

/-- The derived `Serialize` of `BlocksPayload`. -/
def BlocksPayload.toJson (p : BlocksPayload) : Json :=
  Json.obj [(("channel").toList, Json.str p.channel),
            (("text").toList, Json.str p.text),
            (("blocks").toList, Json.arr (p.blocks.map Block.toJson))]

/-- Serialization of the payload actually sent. -/
def Payload.toJson : Payload → Json
  | Payload.attachment p => p.toJson
  | Payload.blocks p => p.toJson

/-- Models `serde_json::to_vec`.  serde_json serialization fails only when a
`Serialize` implementation reports an error or a map key is not a string;
the derived implementations of the payload types are error-free and every
object key is a literal string (intrinsic to the `Json` type above), so
rendering a `Json` tree always succeeds.  The `Option` return mirrors the
`Result` at the call sites, whose `unwrap()` is modelled as a panic. -/
def to_vec (j : Json) : Option Str := some (render j)

/-- `ATTACHMENT_TEXT_MAX` from src/lib.rs line 10. -/
def ATTACHMENT_TEXT_MAX : Nat := 4000

/-- `SECTION_TEXT_MAX` from src/lib.rs line 11. -/
def SECTION_TEXT_MAX : Nat := 3000

/-- The `format!` string of lines 94–97: the size-fallback warning text. -/
def size_warning (max_len : Nat) : Str :=
  ("Message exceeds " ++ toString max_len ++ " chars; sending without color").toList

/-- `config.color.as_ref().map(resolve_color).transpose()` (lines 83–87). -/
def transpose_color (color : Option Str) : Except SlackCliError (Option Str) :=
  match color with
  | none => Except.ok none
  | some c =>
    match resolve_color c with
    | Except.ok rc => Except.ok (some rc)
    | Except.error e => Except.error e

/-- `use_attachment` (line 89): a color resolved and the raw message byte
length within the attachment ceiling. -/
def use_attachment (config : SendConfig) (resolved_color : Option Str) : Bool :=
  resolved_color.isSome && decide (byte_len config.message ≤ ATTACHMENT_TEXT_MAX)

/-- The locally computed warning (lines 91–98): set exactly when a color
resolved but the message byte length exceeds the attachment ceiling. -/
def local_warning (config : SendConfig) (resolved_color : Option Str) : Option Str :=
  if resolved_color.isSome = true ∧ ATTACHMENT_TEXT_MAX < byte_len config.message then
    some (size_warning ATTACHMENT_TEXT_MAX)
  else none

/-- Block assembly (lines 100–106): optional header from the title, then one
section block per chunk of the message split against `SECTION_TEXT_MAX`. -/
def build_blocks (config : SendConfig) : List Block :=
  (match config.title with
   | some title => [Block.Header (HeaderBlock.new title)]
   | none => []) ++
  (split_text config.message SECTION_TEXT_MAX).map
    (fun chunk => Block.Section (SectionBlock.new chunk))

/-- Payload construction (lines 108–123).  The `none` case models the
`resolved_color.unwrap()` on line 109; it requires `use_attachment` to hold
with no resolved color, which is proved impossible. -/
def make_payload (config : SendConfig) (resolved_color : Option Str) : Option Payload :=
  if use_attachment config resolved_color then
    match resolved_color with
    | some color =>
      some (Payload.attachment ⟨config.channel, [], [⟨color, build_blocks config⟩]⟩)
    | none => none
  else
    some (Payload.blocks ⟨config.channel, config.message, build_blocks config⟩)

/-- Outcome of `send_message`: a returned `SendResult`, a returned error, or
an aborted process (an `unwrap()` panic, proved unreachable). -/
inductive SendOutcome where
  | success (result : SendResult)
  | failure (e : SlackCliError)
  | panicked
deriving DecidableEq

/-- `send_message` from src/lib.rs (lines 79–139): resolve the color
(propagating failure), compute the local size warning, build and serialize
the payload, post it, map `ok: false` to `SlackApiError` (falling back to
"unknown error"), and otherwise return success with the local warning taking
priority over the remote one. -/
def send_message (client : SlackClientFun) (config : SendConfig) : SendOutcome :=
  match transpose_color config.color with
  | Except.error e => SendOutcome.failure e
  | Except.ok resolved_color =>
    let warning := local_warning config resolved_color
    match make_payload config resolved_color with
    | none => SendOutcome.panicked
    | some payload =>
      match to_vec (Payload.toJson payload) with
      | none => SendOutcome.panicked
      | some payload_bytes =>
        match client config.token payload_bytes with
        | Except.error e => SendOutcome.failure e
        | Except.ok response =>
          if response.ok = false then
            SendOutcome.failure
              (SlackCliError.SlackApiError (response.error.getD (("unknown error").toList)))
          else
            SendOutcome.success ⟨true, warning.or response.warning⟩

/-- The block list carried by a payload (top-level for the plain form, inside
the attachments for the attachment form). -/
def payload_blocks : Payload → List Block
  | Payload.attachment p => (p.attachments.map Attachment.blocks).flatten
  | Payload.blocks p => p.blocks

/-- Number of header blocks in a block list. -/
def count_headers (bs : List Block) : Nat :=
  bs.countP (fun b => match b with | Block.Header _ => true | Block.Section _ => false)

/-- The section texts of a block list, in order. -/
def section_texts (bs : List Block) : List Str :=
  bs.filterMap (fun b => match b with
    | Block.Section s => some s.text.text
    | Block.Header _ => none)

/-!
Helper lemmas.
-/

theorem charOfNat_toNat (n : Nat) (h : n < 55296) : (Char.ofNat n).toNat = n := by
  have hv : n.isValidChar := Or.inl h
  simp [Char.ofNat, hv, Char.ofNatAux, Char.toNat, UInt32.toNat]

theorem char_eq_iff_toNat (a b : Char) : a = b ↔ a.toNat = b.toNat := by
  constructor
  · intro h; rw [h]
  · intro h
    apply Char.eq_of_val_eq
    apply UInt32.eq_of_toBitVec_eq
    apply BitVec.eq_of_toNat_eq
    simpa [Char.toNat, UInt32.toNat] using h

theorem toLower_toNat (c : Char) :
    (Char.toLower c).toNat =
      if 65 ≤ c.toNat ∧ c.toNat ≤ 90 then c.toNat + 32 else c.toNat := by
  unfold Char.toLower
  split
  · next h =>
    rw [if_pos ⟨h.1, h.2⟩]
    exact charOfNat_toNat _ (by omega)
  · next h =>
    rw [if_neg (by simpa using h)]

theorem utf8Size_ascii (c : Char) (h : c.toNat ≤ 127) : c.utf8Size = 1 := by
  have hv : c.val ≤ (127 : UInt32) := by
    change c.val.toBitVec ≤ _
    simp [BitVec.le_def]
    simpa [Char.toNat, UInt32.toNat] using h
  simp [Char.utf8Size, hv]

theorem hexdigit_toLower_iff (c : Char) :
    is_ascii_hexdigit (Char.toLower c) = true ↔ is_ascii_hexdigit c = true := by
  have h := toLower_toNat c
  simp only [is_ascii_hexdigit, Bool.or_eq_true, decide_eq_true_eq, h]
  split <;> omega

theorem toLower_eq_hash_iff (c : Char) : Char.toLower c = '#' ↔ c = '#' := by
  rw [char_eq_iff_toNat, char_eq_iff_toNat, toLower_toNat]
  have h35 : ('#').toNat = 35 := rfl
  rw [h35]
  split <;> omega

theorem to_lowercase_head_hash_iff (s : Str) :
    (to_lowercase s).head? = some '#' ↔ s.head? = some '#' := by
  cases s with
  | nil => simp [to_lowercase]
  | cons c rest => simp [to_lowercase, toLower_eq_hash_iff]

theorem to_lowercase_tail_hex_iff (s : Str) :
    (to_lowercase s).tail.all is_ascii_hexdigit = true ↔
      s.tail.all is_ascii_hexdigit = true := by
  rw [to_lowercase, ← List.map_tail, List.all_map]
  simp only [List.all_eq_true, Function.comp_apply]
  constructor
  · intro h x hx
    exact (hexdigit_toLower_iff x).mp (h x hx)
  · intro h x hx
    exact (hexdigit_toLower_iff x).mpr (h x hx)

theorem hexdigit_ascii (c : Char) (h : is_ascii_hexdigit c = true) : c.toNat ≤ 127 := by
  simp only [is_ascii_hexdigit, Bool.or_eq_true, decide_eq_true_eq] at h
  omega

theorem all_hexdigit_byte_len (l : Str) (h : l.all is_ascii_hexdigit = true) :
    byte_len l = l.length := by
  induction l with
  | nil => rfl
  | cons c rest ih =>
    simp only [List.all_cons, Bool.and_eq_true] at h
    have h1 : c.utf8Size = 1 := utf8Size_ascii c (hexdigit_ascii c h.1)
    simp only [byte_len, List.map_cons, List.sum_cons, List.length_cons] at *
    rw [h1, ih h.2]
    omega

theorem byte_len_of_hash_hex (l : Str) (hh : l.head? = some '#')
    (ht : l.tail.all is_ascii_hexdigit = true) : byte_len l = l.length := by
  cases l with
  | nil => simp at hh
  | cons c rest =>
    simp only [List.head?_cons, Option.some.injEq] at hh
    simp only [List.tail_cons] at ht
    subst hh
    simp only [byte_len, List.map_cons, List.sum_cons, List.length_cons]
    have h1 : ('#').utf8Size = 1 := by decide
    rw [h1, show (rest.map Char.utf8Size).sum = byte_len rest from rfl,
      all_hexdigit_byte_len rest ht]
    omega

theorem hex_guard_iff (s : Str) :
    (byte_len (to_lowercase s) = 7 ∧ (to_lowercase s).head? = some '#' ∧
        (to_lowercase s).tail.all is_ascii_hexdigit = true)
      ↔ is_hex_color_input s = true := by
  simp only [is_hex_color_input, Bool.and_eq_true, decide_eq_true_eq]
  constructor
  · rintro ⟨h7, hh, ht⟩
    have hh' : s.head? = some '#' := (to_lowercase_head_hash_iff s).mp hh
    have ht' : s.tail.all is_ascii_hexdigit = true := (to_lowercase_tail_hex_iff s).mp ht
    refine ⟨⟨?_, hh'⟩, ht'⟩
    rw [byte_len_of_hash_hex _ hh ht] at h7
    simpa [to_lowercase] using h7
  · rintro ⟨⟨h7, hh⟩, ht⟩
    have hh' : (to_lowercase s).head? = some '#' := (to_lowercase_head_hash_iff s).mpr hh
    have ht' : (to_lowercase s).tail.all is_ascii_hexdigit = true :=
      (to_lowercase_tail_hex_iff s).mpr ht
    refine ⟨?_, hh', ht'⟩
    rw [byte_len_of_hash_hex _ hh' ht']
    simpa [to_lowercase] using h7

/-- Claim C1: the color resolver maps good/success to #36a64f, warning to
#daa038, danger/error to #a30200 (case-insensitively, i.e. keyed on the
lowercased input); it accepts exactly the 7-character strings consisting of
'#' followed by 6 hex digits, returning them lowercased; and every other
input fails with `InvalidColor` carrying the original, non-lowercased
input. -/
theorem resolve_color_spec (input : Str) :
    (to_lowercase input = ("good").toList ∨ to_lowercase input = ("success").toList →
        resolve_color input = Except.ok (("#36a64f").toList)) ∧
    (to_lowercase input = ("warning").toList →
        resolve_color input = Except.ok (("#daa038").toList)) ∧
    (to_lowercase input = ("danger").toList ∨ to_lowercase input = ("error").toList →
        resolve_color input = Except.ok (("#a30200").toList)) ∧
    (is_hex_color_input input = true →
        resolve_color input = Except.ok (to_lowercase input)) ∧
    (is_color_keyword (to_lowercase input) = false → is_hex_color_input input = false →
        resolve_color input = Except.error (SlackCliError.InvalidColor input)) := by
  refine ⟨?_, ?_, ?_, ?_, ?_⟩
  · intro h
    simp only [resolve_color]
    rw [if_pos h]
  · intro h
    simp only [resolve_color]
    rw [h]
    rw [if_neg (by decide), if_pos rfl]
  · intro h
    simp only [resolve_color]
    rcases h with h | h <;> rw [h]
    · rw [if_neg (by decide), if_neg (by decide), if_pos (by decide)]
    · rw [if_neg (by decide), if_neg (by decide), if_pos (by decide)]
  · intro h
    have hg := (hex_guard_iff input).mpr h
    have hh : (to_lowercase input).head? = some '#' := hg.2.1
    have n1 : ¬(to_lowercase input = ("good").toList ∨
        to_lowercase input = ("success").toList) := by
      rintro (h' | h') <;> (rw [h'] at hh; exact absurd hh (by decide))
    have n2 : ¬(to_lowercase input = ("warning").toList) := by
      intro h'; rw [h'] at hh; exact absurd hh (by decide)
    have n3 : ¬(to_lowercase input = ("danger").toList ∨
        to_lowercase input = ("error").toList) := by
      rintro (h' | h') <;> (rw [h'] at hh; exact absurd hh (by decide))
    simp only [resolve_color]
    rw [if_neg n1, if_neg n2, if_neg n3, if_pos hg]
  · intro hkw hhex
    simp only [is_color_keyword, Bool.or_eq_false_iff, decide_eq_false_iff_not] at hkw
    obtain ⟨⟨⟨⟨n1, n2⟩, n3⟩, n4⟩, n5⟩ := hkw
    have hng : ¬(byte_len (to_lowercase input) = 7 ∧
        (to_lowercase input).head? = some '#' ∧
        (to_lowercase input).tail.all is_ascii_hexdigit = true) := by
      intro hg
      have := (hex_guard_iff input).mp hg
      simp [hhex] at this
    simp only [resolve_color]
    rw [if_neg (by rintro (h' | h') <;> [exact n1 h'; exact n2 h']),
      if_neg n3,
      if_neg (by rintro (h' | h') <;> [exact n4 h'; exact n5 h']),
      if_neg hng]

/-- Witness for C1: a concrete mixed-case hex input is accepted lowercased. -/
theorem resolve_color_spec_witness :
    is_hex_color_input (("#AbC12F").toList) = true ∧
      resolve_color (("#AbC12F").toList) = Except.ok (("#abc12f").toList) := by
  refine ⟨by decide, ?_⟩
  have h := (resolve_color_spec (("#AbC12F").toList)).2.2.2.1 (by decide)
  rw [show to_lowercase (("#AbC12F").toList) = ("#abc12f").toList from by decide] at h
  exact h

theorem split_text_go_flatten (max_len : Nat) :
    ∀ fuel remaining, (split_text_go max_len fuel remaining).flatten = remaining := by
  intro fuel
  induction fuel with
  | zero => intro remaining; cases remaining <;> simp [split_text_go]
  | succ fuel ih =>
    intro remaining
    cases remaining with
    | nil => simp [split_text_go]
    | cons c rest =>
      simp only [split_text_go]
      split
      · simp
      · simp only [List.flatten_cons, ih]
        exact List.take_append_drop _ _

theorem rfind_newline_none (l : Str) :
    rfind_newline l = none → ∀ j : Nat, l[j]? ≠ some '\n' := by
  induction l with
  | nil => intro _ j; simp
  | cons c rest ih =>
    intro h j
    simp only [rfind_newline] at h
    cases hr : rfind_newline rest with
    | some i => rw [hr] at h; exact absurd h (by simp)
    | none =>
      rw [hr] at h
      by_cases hc : c = '\n'
      · rw [if_pos hc] at h; exact absurd h (by simp)
      · cases j with
        | zero => simpa using hc
        | succ j => simpa using ih hr j

theorem rfind_newline_some (l : Str) (pos : Nat) :
    rfind_newline l = some pos →
      l[pos]? = some '\n' ∧ ∀ j : Nat, pos < j → l[j]? ≠ some '\n' := by
  induction l generalizing pos with
  | nil => intro h; simp [rfind_newline] at h
  | cons c rest ih =>
    intro h
    simp only [rfind_newline] at h
    cases hr : rfind_newline rest with
    | some i =>
      rw [hr] at h
      simp only [Option.some.injEq] at h
      subst h
      obtain ⟨h1, h2⟩ := ih i hr
      refine ⟨by simpa using h1, ?_⟩
      intro j hj
      cases j with
      | zero => omega
      | succ j => simpa using h2 j (by omega)
    | none =>
      rw [hr] at h
      by_cases hc : c = '\n'
      · rw [if_pos hc] at h
        simp only [Option.some.injEq] at h
        subst h
        refine ⟨by simpa using hc, ?_⟩
        intro j hj
        cases j with
        | zero => omega
        | succ j => simpa using rfind_newline_none rest hr j
      · rw [if_neg hc] at h; exact absurd h (by simp)

theorem rfind_newline_lt (l : Str) (pos : Nat) (h : rfind_newline l = some pos) :
    pos < l.length := by
  have h1 := (rfind_newline_some l pos h).1
  by_contra hge
  rw [List.getElem?_eq_none (by omega)] at h1
  exact absurd h1 (by simp)

theorem split_point_pos (remaining : Str) (max_len : Nat) (hmax : 0 < max_len) :
    0 < split_point remaining max_len := by
  unfold split_point
  cases h : rfind_newline (remaining.take max_len) with
  | none => simpa using hmax
  | some pos => simp

theorem split_point_le (remaining : Str) (max_len : Nat) :
    split_point remaining max_len ≤ max_len := by
  unfold split_point
  cases h : rfind_newline (remaining.take max_len) with
  | none => simp
  | some pos =>
    have hlt := rfind_newline_lt _ pos h
    rw [List.length_take] at hlt
    simp
    omega

theorem split_text_go_chunks (max_len : Nat) (hmax : 0 < max_len) :
    ∀ fuel remaining, remaining.length ≤ fuel →
      ∀ chunk ∈ split_text_go max_len fuel remaining,
        chunk ≠ [] ∧ chunk.length ≤ max_len := by
  intro fuel
  induction fuel with
  | zero =>
    intro remaining hlen chunk hmem
    have hnil : remaining = [] := List.eq_nil_of_length_eq_zero (by omega)
    subst hnil
    simp [split_text_go] at hmem
  | succ fuel ih =>
    intro remaining hlen chunk hmem
    cases remaining with
    | nil => simp [split_text_go] at hmem
    | cons c rest =>
      simp only [split_text_go] at hmem
      split at hmem
      · next hle =>
        simp only [List.mem_singleton] at hmem
        subst hmem
        exact ⟨by simp, by simpa [char_len] using hle⟩
      · next hgt =>
        have hsp_pos : 0 < split_point (c :: rest) max_len := split_point_pos _ _ hmax
        have hsp_le : split_point (c :: rest) max_len ≤ max_len := split_point_le _ _
        simp only [List.mem_cons] at hmem
        rcases hmem with h | h
        · subst h
          constructor
          · apply List.ne_nil_of_length_pos
            rw [List.length_take]
            simp only [List.length_cons]
            omega
          · rw [List.length_take]
            omega
        · refine ih _ ?_ chunk h
          rw [List.length_drop]
          simp only [List.length_cons] at hlen ⊢
          omega

theorem split_text_go_fuel_irrel (max_len : Nat) (hmax : 0 < max_len) :
    ∀ fuel fuel' remaining, remaining.length ≤ fuel → remaining.length ≤ fuel' →
      split_text_go max_len fuel remaining = split_text_go max_len fuel' remaining := by
  intro fuel
  induction fuel with
  | zero =>
    intro fuel' remaining h h'
    have hnil : remaining = [] := List.eq_nil_of_length_eq_zero (by omega)
    subst hnil
    cases fuel' <;> simp [split_text_go]
  | succ fuel ih =>
    intro fuel' remaining h h'
    cases remaining with
    | nil => cases fuel' <;> simp [split_text_go]
    | cons c rest =>
      cases fuel' with
      | zero => simp only [List.length_cons] at h'; omega
      | succ fuel'' =>
        simp only [split_text_go]
        split
        · rfl
        · next hgt =>
          have hsp_pos : 0 < split_point (c :: rest) max_len := split_point_pos _ _ hmax
          congr 1
          apply ih
          · rw [List.length_drop]
            simp only [List.length_cons] at h ⊢
            omega
          · rw [List.length_drop]
            simp only [List.length_cons] at h' ⊢
            omega

theorem split_text_go_eq_split_text (max_len : Nat) (hmax : 0 < max_len)
    (fuel : Nat) (r : Str) (h : r.length ≤ fuel) (hr : r ≠ []) :
    split_text_go max_len fuel r = split_text r max_len := by
  unfold split_text
  split
  · next hle =>
    cases fuel with
    | zero =>
      cases r with
      | nil => exact absurd rfl hr
      | cons c rest => simp only [List.length_cons] at h; omega
    | succ fuel =>
      cases r with
      | nil => exact absurd rfl hr
      | cons c rest =>
        simp only [split_text_go]
        rw [if_pos hle]
  · next hgt =>
    exact split_text_go_fuel_irrel max_len hmax fuel (char_len r) r h (le_refl _)

theorem split_text_step (text : Str) (max_len : Nat) (hmax : 0 < max_len)
    (hlen : max_len < char_len text) :
    split_text text max_len =
      text.take (split_point text max_len)
        :: split_text (text.drop (split_point text max_len)) max_len := by
  have hsp_pos : 0 < split_point text max_len := split_point_pos _ _ hmax
  have hsp_le : split_point text max_len ≤ max_len := split_point_le _ _
  unfold split_text
  rw [if_neg (by omega)]
  cases text with
  | nil => simp only [char_len, List.length_nil] at hlen; omega
  | cons c rest =>
    have hgt : ¬ char_len (c :: rest) ≤ max_len := by omega
    have hL : char_len (c :: rest) = rest.length + 1 := rfl
    rw [hL]
    simp only [split_text_go]
    rw [if_neg hgt]
    congr 1
    refine split_text_go_eq_split_text max_len hmax rest.length _ ?_ ?_
    · rw [List.length_drop]
      simp only [List.length_cons]
      omega
    · apply List.ne_nil_of_length_pos
      rw [List.length_drop]
      simp only [char_len, List.length_cons] at hlen
      simp only [List.length_cons]
      omega

/-- Claim C2: for every input text and positive maximum chunk length,
concatenating the chunker's output, in order, reproduces the input
exactly. -/
theorem split_text_concat (text : Str) (max_len : Nat) (hmax : 0 < max_len) :
    (split_text text max_len).flatten = text := by
  unfold split_text
  split
  · simp
  · exact split_text_go_flatten max_len _ text

/-- Witness for C2 at a concrete text and maximum. -/
theorem split_text_concat_witness :
    0 < 2 ∧ (split_text (("abc\nde").toList) 2).flatten = ("abc\nde").toList :=
  ⟨by decide, split_text_concat (("abc\nde").toList) 2 (by decide)⟩

/-- Counterexample for C6 as stated: on the empty input (with positive
maximum 1) the chunker returns a single chunk that is the empty string, so
not every chunk is non-empty. -/
theorem split_text_empty_chunk_cex :
    split_text ([] : Str) 1 = [[]] ∧ ([] : Str) ∈ split_text ([] : Str) 1 := by
  constructor
  · rfl
  · simp [split_text, char_len]

/-- Claim C6 (amended): for every input text and positive maximum, every
chunk has at most max characters (counted as Unicode scalar values), and is
non-empty provided the input text is non-empty (on empty input the chunker
returns one empty chunk); when the remaining text exceeds max characters,
the chunk produced is the prefix ending immediately after the last newline
within the first max characters if one exists (the newline retained in the
chunk, no newline after it in the window), and otherwise the prefix of
exactly max characters, the rest of the output being the chunking of the
remainder. -/
theorem split_text_chunk_bounds (text : Str) (max_len : Nat) (hmax : 0 < max_len) :
    (∀ chunk ∈ split_text text max_len,
        char_len chunk ≤ max_len ∧ (text ≠ [] → chunk ≠ [])) ∧
    (max_len < char_len text →
        split_text text max_len =
          text.take (split_point text max_len)
            :: split_text (text.drop (split_point text max_len)) max_len ∧
        (∀ pos : Nat, rfind_newline (text.take max_len) = some pos →
            split_point text max_len = pos + 1 ∧
            (text.take max_len)[pos]? = some '\n' ∧
            ∀ j : Nat, pos < j → (text.take max_len)[j]? ≠ some '\n') ∧
        (rfind_newline (text.take max_len) = none →
            split_point text max_len = max_len ∧
            ∀ j : Nat, (text.take max_len)[j]? ≠ some '\n')) := by
  constructor
  · intro chunk hmem
    unfold split_text at hmem
    split at hmem
    · next hle =>
      simp only [List.mem_singleton] at hmem
      subst hmem
      exact ⟨hle, fun hne => hne⟩
    · next hgt =>
      have h := split_text_go_chunks max_len hmax (char_len text) text (le_refl _) chunk hmem
      exact ⟨h.2, fun _ => h.1⟩
  · intro hlen
    refine ⟨split_text_step text max_len hmax hlen, ?_, ?_⟩
    · intro pos hpos
      obtain ⟨h1, h2⟩ := rfind_newline_some _ pos hpos
      exact ⟨by simp [split_point, hpos], h1, h2⟩
    · intro hnone
      exact ⟨by simp [split_point, hnone], rfind_newline_none _ hnone⟩

/-- Witness for C6's amended theorem at a concrete text and maximum. -/
theorem split_text_chunk_bounds_witness :
    0 < 4 ∧ char_len (("ab\n").toList) ≤ 4 ∧
      (("ab\ncd").toList ≠ [] → ("ab\n").toList ≠ []) := by
  refine ⟨by decide, ?_⟩
  have h := (split_text_chunk_bounds (("ab\ncd").toList) 4 (by decide)).1
    (("ab\n").toList) (by decide)
  exact ⟨h.1, h.2⟩

theorem read_token_files_eq (fs : Str → Option Str) (paths : List Str) :
    read_token_files fs paths =
      match paths.findSome? (file_token fs) with
      | some t => Except.ok t
      | none => Except.error SlackCliError.TokenNotFound := by
  induction paths with
  | nil => rfl
  | cons p rest ih =>
    rw [List.findSome?_cons]
    cases hf : fs p with
    | none =>
      have hft : file_token fs p = none := by simp [file_token, hf]
      rw [hft]
      simp only [read_token_files, hf]
      exact ih
    | some contents =>
      by_cases ht : trim contents = []
      · have hft : file_token fs p = none := by simp [file_token, hf, ht]
        rw [hft]
        simp only [read_token_files, hf]
        rw [if_neg (fun h => h ht)]
        exact ih
      · have hft : file_token fs p = some (trim contents) := by
          simp [file_token, hf, ht]
        rw [hft]
        simp only [read_token_files, hf]
        rw [if_pos ht]

/-- Claim C4: token resolution returns the trimmed environment value whenever
the variable is set and non-empty after trimming, regardless of file
contents; otherwise it returns the trimmed contents of the first readable
path with non-empty trimmed contents, silently skipping unreadable files
(`List.findSome?` is exactly first-in-order selection); and it fails with
`TokenNotFound` exactly when no source yields a token. -/
theorem resolve_token_spec (env fs : Str → Option Str) (config : TokenConfig) :
    (∀ v, env config.env_var = some v → trim v ≠ [] →
        resolve_token_with_config env fs config = Except.ok (trim v)) ∧
    (env_token env config.env_var = none →
        resolve_token_with_config env fs config =
          match config.file_paths.findSome? (file_token fs) with
          | some t => Except.ok t
          | none => Except.error SlackCliError.TokenNotFound) ∧
    (resolve_token_with_config env fs config = Except.error SlackCliError.TokenNotFound ↔
        env_token env config.env_var = none ∧
          ∀ p ∈ config.file_paths, file_token fs p = none) := by
  refine ⟨?_, ?_, ?_⟩
  · intro v hv ht
    simp only [resolve_token_with_config, hv]
    rw [if_pos ht]
  · intro he
    cases hv : env config.env_var with
    | none =>
      simp only [resolve_token_with_config, hv]
      exact read_token_files_eq fs config.file_paths
    | some v =>
      simp only [env_token, hv] at he
      by_cases ht : trim v = []
      · simp only [resolve_token_with_config, hv]
        rw [if_neg (fun hx => hx ht)]
        exact read_token_files_eq fs config.file_paths
      · rw [if_pos ht] at he
        exact absurd he (by simp)
  · constructor
    · intro h
      cases hv : env config.env_var with
      | none =>
        simp only [resolve_token_with_config, hv, read_token_files_eq] at h
        refine ⟨by simp [env_token, hv], ?_⟩
        cases hf : config.file_paths.findSome? (file_token fs) with
        | some t => rw [hf] at h; exact absurd h (by simp)
        | none => exact List.findSome?_eq_none_iff.mp hf
      | some v =>
        by_cases ht : trim v = []
        · simp only [resolve_token_with_config, hv] at h
          rw [if_neg (fun hx => hx ht), read_token_files_eq] at h
          refine ⟨by simp [env_token, hv, ht], ?_⟩
          cases hf : config.file_paths.findSome? (file_token fs) with
          | some t => rw [hf] at h; exact absurd h (by simp)
          | none => exact List.findSome?_eq_none_iff.mp hf
        · simp only [resolve_token_with_config, hv] at h
          rw [if_pos ht] at h
          exact absurd h (by simp)
    · rintro ⟨he, hall⟩
      have hfind : config.file_paths.findSome? (file_token fs) = none :=
        List.findSome?_eq_none_iff.mpr hall
      cases hv : env config.env_var with
      | none => simp only [resolve_token_with_config, hv, read_token_files_eq, hfind]
      | some v =>
        simp only [env_token, hv] at he
        by_cases ht : trim v = []
        · simp only [resolve_token_with_config, hv]
          rw [if_neg (fun hx => hx ht), read_token_files_eq, hfind]
        · rw [if_pos ht] at he
          exact absurd he (by simp)

/-- Witness for C4: a concrete environment with a padded value wins over a
file system that would also yield a token. -/
theorem resolve_token_spec_witness :
    trim (("  tok ").toList) ≠ [] ∧
      resolve_token_with_config
        (fun n => if n = ("SLACK_API_KEY").toList then some (("  tok ").toList) else none)
        (fun _ => some (("file-tok").toList))
        ⟨("SLACK_API_KEY").toList, [("/etc/slack/api-token").toList]⟩
        = Except.ok (trim (("  tok ").toList)) := by
  refine ⟨by decide, ?_⟩
  exact (resolve_token_spec
      (fun n => if n = ("SLACK_API_KEY").toList then some (("  tok ").toList) else none)
      (fun _ => some (("file-tok").toList))
      ⟨("SLACK_API_KEY").toList, [("/etc/slack/api-token").toList]⟩).1
    (("  tok ").toList) (by decide) (by decide)

theorem resolve_color_error_shape (input : Str) (e : SlackCliError)
    (h : resolve_color input = Except.error e) : e = SlackCliError.InvalidColor input := by
  simp only [resolve_color] at h
  split at h
  · exact absurd h (by simp)
  · split at h
    · exact absurd h (by simp)
    · split at h
      · exact absurd h (by simp)
      · split at h
        · exact absurd h (by simp)
        · simp only [Except.error.injEq] at h
          exact h.symm

theorem make_payload_isSome (config : SendConfig) (resolved_color : Option Str) :
    ∃ p, make_payload config resolved_color = some p := by
  unfold make_payload
  split
  · next hua =>
    cases resolved_color with
    | some color => exact ⟨_, rfl⟩
    | none => simp [use_attachment] at hua
  · exact ⟨_, rfl⟩

theorem send_message_eq_of_payload (client : SlackClientFun) (config : SendConfig)
    (resolved_color : Option Str) (payload : Payload)
    (h1 : transpose_color config.color = Except.ok resolved_color)
    (h2 : make_payload config resolved_color = some payload) :
    send_message client config =
      match client config.token (render (Payload.toJson payload)) with
      | Except.error e => SendOutcome.failure e
      | Except.ok response =>
        if response.ok = false then
          SendOutcome.failure
            (SlackCliError.SlackApiError (response.error.getD (("unknown error").toList)))
        else
          SendOutcome.success
            ⟨true, (local_warning config resolved_color).or response.warning⟩ := by
  simp only [send_message, h1, h2, to_vec]

/-- Claim C10: `send_message` never panics: for every transport and every
configuration its outcome is a success or one of the declared error
variants, never the `panicked` value that models an `unwrap()` abort (the
color `unwrap` is guarded by `use_attachment`, and serializing the built
payload always succeeds). -/
theorem send_message_no_panic (client : SlackClientFun) (config : SendConfig) :
    send_message client config ≠ SendOutcome.panicked := by
  cases hc : transpose_color config.color with
  | error e => simp [send_message, hc]
  | ok resolved_color =>
    obtain ⟨p, hp⟩ := make_payload_isSome config resolved_color
    rw [send_message_eq_of_payload client config resolved_color p hc hp]
    cases hr : client config.token (render (Payload.toJson p)) with
    | error e => simp
    | ok response =>
      by_cases hok : response.ok = false
      · simp [hok]
      · simp [hok]

/-- Claim C5: whenever the transport returns a response with `ok` false (and
the color stage passed, so the transport is actually consulted),
`send_message` fails with `SlackApiError` carrying the response's error
field verbatim, or "unknown error" when that field is absent; it never
returns success. -/
theorem send_api_error_spec (client : SlackClientFun) (config : SendConfig)
    (resolved_color : Option Str) (response : SlackResponse)
    (hcolor : transpose_color config.color = Except.ok resolved_color)
    (hclient : ∀ t b, client t b = Except.ok response)
    (hok : response.ok = false) :
    send_message client config =
      SendOutcome.failure
        (SlackCliError.SlackApiError (response.error.getD (("unknown error").toList))) := by
  obtain ⟨p, hp⟩ := make_payload_isSome config resolved_color
  rw [send_message_eq_of_payload client config resolved_color p hcolor hp,
    hclient config.token (render (Payload.toJson p))]
  dsimp only
  rw [if_pos hok]

/-- Witness for C5 at a concrete transport and configuration. -/
theorem send_api_error_spec_witness :
    send_message
      (fun _ _ => Except.ok ⟨false, some (("channel_not_found").toList), none⟩)
      ⟨("#test").toList, ("Hello").toList, none, none, ("xoxb-test").toList⟩
      = SendOutcome.failure (SlackCliError.SlackApiError (("channel_not_found").toList)) := by
  have h := send_api_error_spec
    (fun _ _ => Except.ok ⟨false, some (("channel_not_found").toList), none⟩)
    ⟨("#test").toList, ("Hello").toList, none, none, ("xoxb-test").toList⟩
    none ⟨false, some (("channel_not_found").toList), none⟩
    rfl (fun _ _ => rfl) rfl
  rw [h]
  decide

/-- Claim C8: on a successful send (`ok` true from the transport) the result
is `ok = true` with the locally-computed size-fallback warning when one
exists and the remote warning otherwise — `Option.or` of the two, so the
local warning takes priority and the two are never combined. -/
theorem send_success_warning_spec (client : SlackClientFun) (config : SendConfig)
    (resolved_color : Option Str) (response : SlackResponse)
    (hcolor : transpose_color config.color = Except.ok resolved_color)
    (hclient : ∀ t b, client t b = Except.ok response)
    (hok : response.ok = true) :
    send_message client config =
      SendOutcome.success
        ⟨true, (local_warning config resolved_color).or response.warning⟩ ∧
    (∀ w, local_warning config resolved_color = some w →
        (local_warning config resolved_color).or response.warning = some w) ∧
    (local_warning config resolved_color = none →
        (local_warning config resolved_color).or response.warning = response.warning) := by
  refine ⟨?_, ?_, ?_⟩
  · obtain ⟨p, hp⟩ := make_payload_isSome config resolved_color
    rw [send_message_eq_of_payload client config resolved_color p hcolor hp,
      hclient config.token (render (Payload.toJson p))]
    dsimp only
    rw [if_neg (by simp [hok])]
  · intro w hw
    rw [hw]
    rfl
  · intro hw
    rw [hw]
    rfl

/-- Witness for C8: with no local warning the remote warning is returned. -/
theorem send_success_warning_spec_witness :
    send_message (fun _ _ => Except.ok ⟨true, none, some (("missing_text").toList)⟩)
      ⟨("#c").toList, ("Hello").toList, none, none, ("t").toList⟩
      = SendOutcome.success ⟨true, some (("missing_text").toList)⟩ := by
  have h := (send_success_warning_spec
    (fun _ _ => Except.ok ⟨true, none, some (("missing_text").toList)⟩)
    ⟨("#c").toList, ("Hello").toList, none, none, ("t").toList⟩
    none ⟨true, none, some (("missing_text").toList)⟩
    rfl (fun _ _ => rfl) rfl).1
  rw [h]
  decide

/-- Claim C9: when the configuration's color specification does not resolve,
`send_message` fails with `InvalidColor` carrying that specification, for
every transport (the result does not depend on the transport, which is
therefore never consulted) and regardless of message, title, or channel. -/
theorem send_invalid_color_spec (client : SlackClientFun) (config : SendConfig)
    (c : Str) (e : SlackCliError) (hc : config.color = some c)
    (hbad : resolve_color c = Except.error e) :
    send_message client config = SendOutcome.failure (SlackCliError.InvalidColor c) := by
  have he := resolve_color_error_shape c e hbad
  subst he
  simp [send_message, transpose_color, hc, hbad]

/-- Witness for C9 at a concrete invalid color. -/
theorem send_invalid_color_spec_witness :
    send_message (fun _ _ => Except.ok ⟨true, none, none⟩)
      ⟨("#c").toList, ("Hello").toList, some (("blue").toList), none, ("t").toList⟩
      = SendOutcome.failure (SlackCliError.InvalidColor (("blue").toList)) :=
  send_invalid_color_spec _ _ (("blue").toList)
    (SlackCliError.InvalidColor (("blue").toList)) rfl (by decide)

theorem count_headers_sections (chunks : List Str) :
    count_headers (chunks.map (fun chunk => Block.Section (SectionBlock.new chunk))) = 0 := by
  induction chunks with
  | nil => rfl
  | cons c rest ih => simp [count_headers, List.countP_cons]

theorem section_texts_sections (chunks : List Str) :
    section_texts (chunks.map (fun chunk => Block.Section (SectionBlock.new chunk)))
      = chunks := by
  induction chunks with
  | nil => rfl
  | cons c rest ih => simp [section_texts, SectionBlock.new] at ih ⊢; exact ih

theorem payload_blocks_make_payload (config : SendConfig) (resolved_color : Option Str)
    (payload : Payload) (h : make_payload config resolved_color = some payload) :
    payload_blocks payload = build_blocks config := by
  unfold make_payload at h
  split at h
  · cases resolved_color with
    | some color =>
      simp only [Option.some.injEq] at h
      subst h
      simp [payload_blocks]
    | none => exact absurd h (by simp)
  · simp only [Option.some.injEq] at h
    subst h
    simp [payload_blocks]

/-- Claim C7: in every payload built by `send_message` (`make_payload` is its
payload-construction stage), a present title makes the first block a header
block containing the title and the only header block; and the section texts
are exactly the chunks of the message body against `SECTION_TEXT_MAX`, in
order (hence equal counts). -/
theorem payload_blocks_spec (config : SendConfig) (resolved_color : Option Str)
    (payload : Payload) (h : make_payload config resolved_color = some payload) :
    (∀ title, config.title = some title →
        (payload_blocks payload).head? = some (Block.Header (HeaderBlock.new title)) ∧
        count_headers (payload_blocks payload) = 1) ∧
    (config.title = none → count_headers (payload_blocks payload) = 0) ∧
    section_texts (payload_blocks payload) = split_text config.message SECTION_TEXT_MAX := by
  rw [payload_blocks_make_payload config resolved_color payload h]
  refine ⟨?_, ?_, ?_⟩
  · intro title ht
    unfold build_blocks
    rw [ht]
    constructor
    · rfl
    · show count_headers (Block.Header (HeaderBlock.new title)
        :: (split_text config.message SECTION_TEXT_MAX).map
          (fun chunk => Block.Section (SectionBlock.new chunk))) = 1
      simp [count_headers, List.countP_cons]
  · intro ht
    unfold build_blocks
    rw [ht]
    simp only [List.nil_append]
    exact count_headers_sections _
  · unfold build_blocks
    cases ht : config.title with
    | some title =>
      show section_texts (Block.Header (HeaderBlock.new title)
        :: (split_text config.message SECTION_TEXT_MAX).map
          (fun chunk => Block.Section (SectionBlock.new chunk))) = _
      simp only [section_texts, List.filterMap_cons]
      have := section_texts_sections (split_text config.message SECTION_TEXT_MAX)
      simpa [section_texts] using this
    | none =>
      simp only [List.nil_append]
      exact section_texts_sections _

/-- Witness for C7: a concrete titled configuration yields a header-first
block list with one header and one section per chunk. -/
theorem payload_blocks_spec_witness :
    (payload_blocks (Payload.blocks ⟨("#c").toList, ("Hello").toList,
        [Block.Header (HeaderBlock.new (("My Title").toList)),
         Block.Section (SectionBlock.new (("Hello").toList))]⟩)).head?
      = some (Block.Header (HeaderBlock.new (("My Title").toList))) ∧
    count_headers (payload_blocks (Payload.blocks ⟨("#c").toList, ("Hello").toList,
        [Block.Header (HeaderBlock.new (("My Title").toList)),
         Block.Section (SectionBlock.new (("Hello").toList))]⟩)) = 1 := by
  have h := (payload_blocks_spec
    ⟨("#c").toList, ("Hello").toList, none, some (("My Title").toList), ("t").toList⟩
    none
    (Payload.blocks ⟨("#c").toList, ("Hello").toList,
      [Block.Header (HeaderBlock.new (("My Title").toList)),
       Block.Section (SectionBlock.new (("Hello").toList))]⟩)
    (by decide)).1 (("My Title").toList) rfl
  exact h

/-- Claim C3: with a valid color present, the attachment-style payload is
used exactly when the raw message byte length is within
`ATTACHMENT_TEXT_MAX = 4000` (so exactly at the ceiling the colored
attachment form is used), and one unit over the ceiling drops the color,
produces the plain payload, and sets a warning whose text mentions 4000. -/
theorem send_color_size_spec (config : SendConfig) (c rc : Str)
    (hc : config.color = some c) (hrc : resolve_color c = Except.ok rc) :
    transpose_color config.color = Except.ok (some rc) ∧
    ATTACHMENT_TEXT_MAX = 4000 ∧
    (byte_len config.message ≤ ATTACHMENT_TEXT_MAX →
        make_payload config (some rc) =
          some (Payload.attachment ⟨config.channel, [], [⟨rc, build_blocks config⟩]⟩) ∧
        local_warning config (some rc) = none) ∧
    (ATTACHMENT_TEXT_MAX < byte_len config.message →
        make_payload config (some rc) =
          some (Payload.blocks ⟨config.channel, config.message, build_blocks config⟩) ∧
        local_warning config (some rc) = some (size_warning ATTACHMENT_TEXT_MAX) ∧
        ∃ pre post : Str,
          size_warning ATTACHMENT_TEXT_MAX = pre ++ ("4000").toList ++ post) := by
  refine ⟨by simp [transpose_color, hc, hrc], rfl, ?_, ?_⟩
  · intro hle
    constructor
    · have hua : use_attachment config (some rc) = true := by
        simp [use_attachment, hle]
      simp [make_payload, hua]
    · simp only [local_warning]
      rw [if_neg (by simp; omega)]
  · intro hgt
    refine ⟨?_, ?_, ?_⟩
    · have hua : use_attachment config (some rc) = false := by
        simp [use_attachment]
        omega
      simp [make_payload, hua]
    · simp only [local_warning]
      rw [if_pos (by simp; omega)]
    · exact ⟨("Message exceeds ").toList, (" chars; sending without color").toList, by decide⟩

/-- Witness for C3: a short colored message takes the attachment branch with
no warning. -/
theorem send_color_size_spec_witness :
    byte_len (("Hello").toList) ≤ ATTACHMENT_TEXT_MAX ∧
      local_warning
        ⟨("#c").toList, ("Hello").toList, some (("good").toList), none, ("t").toList⟩
        (some (("#36a64f").toList)) = none := by
  refine ⟨by decide, ?_⟩
  exact ((send_color_size_spec
    ⟨("#c").toList, ("Hello").toList, some (("good").toList), none, ("t").toList⟩
    (("good").toList) (("#36a64f").toList) rfl (by decide)).2.2.1 (by decide)).2
